import Mathlib

/-!
Shallow embedding of the pdfloveme backend (src/backend/server.js).

Modelling conventions:
- JS strings are modelled as lists of characters (`JSStr`); string literals
  are written as `"...".toList`.
- JS `null`/`undefined` is modelled as `Option`; JS truthiness of an optional
  string (`if (x)`) is `jsTruthyStr` (false for absent and for the empty
  string).
- Timestamps are milliseconds as `Int` (JS `Date` subtraction yields ms);
  the usage counter `dailyCount` is a `Nat`.
- The Mongo collection of users is a `List Account`; `findOne` is `List.find?`
  and `save` of a loaded document writes it back by `id`.
- Opaque primitives are abstracted as function parameters: `jwt.verify`
  becomes `verify : JSStr → Option Nat` (`none` = the verifier throws, i.e.
  bad signature or expired; `some i` = the verified payload's bound account
  id), `bcrypt.compare` becomes `compareHash`, and freshly generated keys,
  hashes and tokens are passed in as arguments.
-/

abbrev JSStr := List Char

inductive Plan where
  | free
  | premium
  deriving DecidableEq, Repr

/-- The Mongoose `User` document (schema at src/backend/server.js lines 41-49). -/
structure Account where
  id : Nat
  email : JSStr
  passwordHash : JSStr
  apiKey : JSStr
  plan : Plan
  createdAt : Int
  dailyCount : Nat
  dailyReset : Option Int
  deriving DecidableEq, Repr

/-- JS truthiness of an optional string: `undefined` and `""` are falsy. -/
def jsTruthyStr (o : Option JSStr) : Bool :=
  match o with
  | none => false
  | some s => !s.isEmpty

/-- Error outcomes of `authMiddleware` (the response bodies it can send).
`authError` is the generic message produced by the surrounding
`try/catch` when `jwt.verify` throws (bad signature or expired token). -/
inductive AuthErr where
  | invalidApiKey
  | invalidToken
  | noCredentials
  | authError
  deriving DecidableEq, Repr

structure ReqHeaders where
  xApiKey : Option JSStr
  authorization : Option JSStr
  deriving DecidableEq, Repr

/-- `User.findOne` by API key: first stored account with this API key. -/
def findByApiKey (store : List Account) (k : JSStr) : Option Account :=
  store.find? (fun a => decide (a.apiKey = k))

/-- `User.findById(payload.id)`. -/
def findById (store : List Account) (i : Nat) : Option Account :=
  store.find? (fun a => decide (a.id = i))

/-- The bearer-token branch of `authMiddleware` (lines 65-74): requires an
`authorization` header starting with `Bearer `, extracts the token with
`slice(7)`, verifies it, then loads the bound account. -/
def authBearer (verify : JSStr → Option Nat) (store : List Account)
    (auth : Option JSStr) : Except AuthErr Account :=
  match auth with
  | some s =>
    if ("Bearer ".toList).isPrefixOf s then
      match verify (s.drop 7) with
      | none => Except.error AuthErr.authError
      | some i =>
        match findById store i with
        | none => Except.error AuthErr.invalidToken
        | some u => Except.ok u
    else Except.error AuthErr.noCredentials
  | none => Except.error AuthErr.noCredentials

/-- `authMiddleware` (lines 56-76): API key checked first, then bearer token,
else `No credentials`. -/
def authMiddleware (verify : JSStr → Option Nat) (store : List Account)
    (h : ReqHeaders) : Except AuthErr Account :=
  if jsTruthyStr h.xApiKey then
    match findByApiKey store (h.xApiKey.getD []) with
    | none => Except.error AuthErr.invalidApiKey
    | some u => Except.ok u
  else authBearer verify store h.authorization

inductive LimitDecision where
  | admitted
  | quotaExceeded
  deriving DecidableEq, Repr

/-- `24*3600*1000` ms. -/
def dayMs : Int := 24 * 3600 * 1000

/-- Window rollover (lines 82-86): `if(!user.dailyReset || (now - user.dailyReset) > 24*3600*1000)`
reset the counter and the window start. -/
def applyRollover (a : Account) (now : Int) : Account :=
  match a.dailyReset with
  | none => { a with dailyCount := 0, dailyReset := some now }
  | some t =>
    if now - t > dayMs then { a with dailyCount := 0, dailyReset := some now }
    else a

/-- Line 87: `user.plan === 'premium' ? 1000000 : FREE_LIMIT`. -/
def planLimit (freeLimit : Nat) (p : Plan) : Nat :=
  match p with
  | Plan.premium => 1000000
  | Plan.free => freeLimit

/-- Lines 87-91: reject without mutation when at the limit, else increment and
admit. -/
def limitStep (freeLimit : Nat) (a : Account) : Account × LimitDecision :=
  if a.dailyCount ≥ planLimit freeLimit a.plan then (a, LimitDecision.quotaExceeded)
  else ({ a with dailyCount := a.dailyCount + 1 }, LimitDecision.admitted)

/-- `enforceLimit` (lines 79-92) acting on the loaded user document:
rollover first, then the limit check. -/
def enforceLimit (freeLimit : Nat) (a : Account) (now : Int) : Account × LimitDecision :=
  limitStep freeLimit (applyRollover a now)

/-- `FREE_PLAN_LIMIT` environment default (line 37). -/
def FREE_LIMIT_DEFAULT : Nat := 20

/-- A sequence of requests by the same account, one per listed timestamp,
each evaluated by `enforceLimit` on the account state the previous one left. -/
def runSeq (fl : Nat) : Account → List Int → Account × List LimitDecision
  | a, [] => (a, [])
  | a, now :: rest =>
    let p := enforceLimit fl a now
    let q := runSeq fl p.1 rest
    (q.1, p.2 :: q.2)

/-!
Interleaving model of two concurrent `enforceLimit` evaluations for the same
account (same 24h window). The code reads the counter from a per-request
document snapshot and later writes the locally incremented value back with
`save()`, with `await` points in between, so the read and the
check-and-write of two in-flight requests can interleave. `ReqPhase` tracks
one request: it has not yet read the shared counter, or holds a stale local
copy, or is done (admitted or rejected).
-/

inductive ReqPhase where
  | start
  | loaded (c : Nat)
  | done (admitted : Bool)
  deriving DecidableEq, Repr

structure RaceState where
  store : Nat
  r1 : ReqPhase
  r2 : ReqPhase
  deriving DecidableEq, Repr

/-- One atomic step of a single request against the shared counter: first the
read (document snapshot), then the check on the snapshot followed by the
write-back of the locally incremented value. -/
def stepOne (limit : Nat) (store : Nat) : ReqPhase → ReqPhase × Nat
  | ReqPhase.start => (ReqPhase.loaded store, store)
  | ReqPhase.loaded c =>
    if c ≥ limit then (ReqPhase.done false, store)
    else (ReqPhase.done true, c + 1)
  | ReqPhase.done b => (ReqPhase.done b, store)

/-- Scheduler step: `true` advances request 1, `false` advances request 2. -/
def raceStep (limit : Nat) (s : RaceState) (pickFirst : Bool) : RaceState :=
  if pickFirst then
    let p := stepOne limit s.store s.r1
    { s with r1 := p.1, store := p.2 }
  else
    let p := stepOne limit s.store s.r2
    { s with r2 := p.1, store := p.2 }

def runSched (limit : Nat) (s : RaceState) : List Bool → RaceState
  | [] => s
  | b :: rest => runSched limit (raceStep limit s b) rest

/-! Credential issuer: signup (lines 95-108), login (lines 111-121),
regenerate (lines 124-131). -/

structure SignupReq where
  email : JSStr
  password : JSStr
  plan : Option JSStr
  deriving DecidableEq, Repr

inductive SignupOutcome where
  | invalidInput
  | duplicateEmail
  | created (token : JSStr) (apiKey : JSStr) (email : JSStr) (plan : Plan)
  deriving DecidableEq, Repr

/-- Signup handler: input check, duplicate-email check, then create and
persist the new account. `hash`, `newKey`, `newId`, `now` and `token` stand
for the values produced by `bcrypt.hash`, `genApiKey`, Mongo id assignment,
`Date.now` and `jwt.sign`. Returns the store after the request and the
response. -/
def signup (store : List Account) (r : SignupReq) (hash newKey : JSStr)
    (newId : Nat) (now : Int) (token : JSStr) : List Account × SignupOutcome :=
  if r.email.isEmpty || r.password.isEmpty then (store, SignupOutcome.invalidInput)
  else
    match store.find? (fun a => decide (a.email = r.email)) with
    | some _ => (store, SignupOutcome.duplicateEmail)
    | none =>
      let p := if r.plan = some ("premium".toList) then Plan.premium else Plan.free
      let u : Account :=
        { id := newId, email := r.email, passwordHash := hash, apiKey := newKey,
          plan := p, createdAt := now, dailyCount := 0, dailyReset := some now }
      (store ++ [u], SignupOutcome.created token newKey r.email p)

inductive LoginOutcome where
  | success (token : JSStr) (apiKey : JSStr) (email : JSStr) (plan : Plan)
  | failure (status : Nat) (msg : JSStr)
  deriving DecidableEq, Repr

/-- Login handler: find by email, then `bcrypt.compare`; both failure paths
return `res.status(400).json(...)` with the message `Invalid credentials`. -/
def login (store : List Account) (email password : JSStr)
    (compareHash : JSStr → JSStr → Bool) (token : JSStr) : LoginOutcome :=
  match store.find? (fun a => decide (a.email = email)) with
  | none => LoginOutcome.failure 400 ("Invalid credentials".toList)
  | some u =>
    if compareHash password u.passwordHash then
      LoginOutcome.success token u.apiKey u.email u.plan
    else LoginOutcome.failure 400 ("Invalid credentials".toList)

/-- `user.apiKey = genApiKey(); await user.save()`: write the rotated key
back to the store for the resolved account's id. -/
def regenerateApiKey (store : List Account) (uid : Nat) (newKey : JSStr) :
    List Account :=
  store.map (fun b => if b.id = uid then { b with apiKey := newKey } else b)

/-- Persist a loaded document back into the store (Mongoose `save()` by id). -/
def saveAccount (store : List Account) (a : Account) : List Account :=
  store.map (fun b => if b.id = a.id then a else b)

inductive RouteOutcome where
  | authFailed (e : AuthErr)
  | limited
  | proceeded (u : Account)
  deriving DecidableEq, Repr

/-- A protected route's middleware chain `authMiddleware, enforceLimit`:
resolution first (no store writes), then quota enforcement, whose account
mutations are persisted by `save()`. -/
def protectedRoute (verify : JSStr → Option Nat) (fl : Nat)
    (store : List Account) (h : ReqHeaders) (now : Int) :
    List Account × RouteOutcome :=
  match authMiddleware verify store h with
  | Except.error e => (store, RouteOutcome.authFailed e)
  | Except.ok u =>
    let p := enforceLimit fl u now
    (saveAccount store p.1,
      match p.2 with
      | LimitDecision.quotaExceeded => RouteOutcome.limited
      | LimitDecision.admitted => RouteOutcome.proceeded p.1)

/-! The split endpoint's page-spec parsing (lines 161-182). -/

/-- JS `String.prototype.split` with a one-character separator. -/
def splitChar (sep : Char) : JSStr → List JSStr
  | [] => [[]]
  | c :: rest =>
    match splitChar sep rest with
    | [] => [[]]
    | g :: gs => if c = sep then [] :: g :: gs else (c :: g) :: gs

/-- JS `String.prototype.trim`. -/
def jsTrim (s : JSStr) : JSStr :=
  ((s.dropWhile Char.isWhitespace).reverse.dropWhile Char.isWhitespace).reverse

def digitsVal (ds : List Char) : Nat :=
  ds.foldl (fun acc c => acc * 10 + (c.toNat - 48)) 0

/-- JS `parseInt(s, 10)`: skip leading whitespace, optional sign, then the
leading run of decimal digits; `none` models `NaN`. -/
def jsParseInt (s : JSStr) : Option Int :=
  match s.dropWhile Char.isWhitespace with
  | [] => none
  | c :: rest =>
    if c = '-' then
      match rest.takeWhile Char.isDigit with
      | [] => none
      | ds => some (-(digitsVal ds : Int))
    else if c = '+' then
      match rest.takeWhile Char.isDigit with
      | [] => none
      | ds => some ((digitsVal ds : Int))
    else
      match (c :: rest).takeWhile Char.isDigit with
      | [] => none
      | ds => some ((digitsVal ds : Int))

/-- The numbers produced by `for(let i=a;i<=b;i++)`. -/
def intRangeIncl (a b : Int) : List Int :=
  if a ≤ b then (List.range ((b - a).toNat + 1)).map (fun k => a + (k : Int))
  else []

/-- One comma-separated part of the pages spec: either `a-b` (1-based
inclusive range, each bound `parseInt`-ed after `trim`) or a single 1-based
number; every pushed entry is converted to a 0-based index by subtracting 1.
`none` entries model pushed `NaN`s. -/
def entryPages (p : JSStr) : List (Option Int) :=
  if p.contains '-' then
    let parts := splitChar '-' p
    let a := jsParseInt (jsTrim (parts.headD []))
    let b :=
      match parts.drop 1 with
      | [] => none
      | q :: _ => jsParseInt (jsTrim q)
    match a, b with
    | some av, some bv => (intRangeIncl av bv).map (fun i => some (i - 1))
    | _, _ => []
  else [(jsParseInt (jsTrim p)).map (fun n => n - 1)]

/-- `pagesQuery.split(',')` with each part handled by `entryPages`, pushes
appended in order. -/
def pagesSpecToList (q : JSStr) : List (Option Int) :=
  (splitChar ',' q).flatMap entryPages

/-- Lines 165-179: absent (or falsy) pages spec defaults to `[0]`, else the
parsed spec. -/
def pagesToKeep (q : Option JSStr) : List (Option Int) :=
  if jsTruthyStr q then pagesSpecToList (q.getD []) else [some 0]

/-- The filter predicate of line 181, `i => i>=0 && i<total`, as the
`filterMap` function it induces: in-range indices are kept (as `Nat`
positions), out-of-range indices and `NaN` (`none`) entries fail the
comparison and are dropped. -/
def keepFilter (total : Nat) (o : Option Int) : Option Nat :=
  match o with
  | some i => if 0 ≤ i ∧ i < (total : Int) then some i.toNat else none
  | none => none

/-- Line 181: `pagesToKeep.filter(i => i>=0 && i<total)`. -/
def keptIndices (q : Option JSStr) (total : Nat) : List Nat :=
  (pagesToKeep q).filterMap (keepFilter total)

/-- Lines 180-182: the output document holds exactly the kept pages of the
input, copied in order (`copyPages` then `addPage`). -/
def splitDoc {α : Type} (doc : List α) (q : Option JSStr) : List α :=
  (keptIndices q doc.length).filterMap (fun i => doc[i]?)

/-- Convenience builder for concrete accounts used in closed statements. -/
def mkAccount (i : Nat) (em pw key : JSStr) (p : Plan) (cnt : Nat)
    (reset : Option Int) : Account :=
  { id := i, email := em, passwordHash := pw, apiKey := key, plan := p,
    createdAt := 0, dailyCount := cnt, dailyReset := reset }

/-! ### Helper lemmas -/

theorem isPrefixOf_append_self (l t : List Char) : l.isPrefixOf (l ++ t) = true := by
  induction l with
  | nil => simp
  | cons c cs ih => simp [List.isPrefixOf, ih]

theorem drop_bearer_marker (tok : JSStr) : ("Bearer ".toList ++ tok).drop 7 = tok := by
  have h : (7 : Nat) = ("Bearer ".toList).length := rfl
  rw [h, List.drop_left]

theorem isEmpty_false_of_ne_nil {l : JSStr} (h : l ≠ []) : l.isEmpty = false := by
  cases l with
  | nil => exact absurd rfl h
  | cons c cs => rfl

theorem find?_eq_some_of_unique {α : Type} (p : α → Bool) (l : List α) (v : α)
    (hmem : v ∈ l) (hv : p v = true) (huniq : ∀ x ∈ l, p x = true → x = v) :
    l.find? p = some v := by
  induction l with
  | nil => cases hmem
  | cons x xs ih =>
    rcases List.mem_cons.mp hmem with h | h
    · subst h
      simp [List.find?, hv]
    · by_cases hx : p x = true
      · have hxa := huniq x (List.mem_cons_self x xs) hx
        subst hxa
        simp [List.find?, hx]
      · have hxf : p x = false := by
          cases hpx : p x
          · rfl
          · exact absurd hpx hx
        simp only [List.find?, hxf]
        exact ih h (fun y hy hpy => huniq y (List.mem_cons_of_mem x hy) hpy)

theorem applyRollover_le (a : Account) (now t : Int) (h : a.dailyReset = some t)
    (hle : ¬ now - t > dayMs) : applyRollover a now = a := by
  simp only [applyRollover, h]
  rw [if_neg hle]

theorem applyRollover_gt (a : Account) (now t : Int) (h : a.dailyReset = some t)
    (hgt : now - t > dayMs) :
    applyRollover a now = { a with dailyCount := 0, dailyReset := some now } := by
  simp only [applyRollover, h]
  rw [if_pos hgt]

theorem runSeq_free_decisions (times : List Int) (fl : Nat) (t : Int) (b : Account)
    (hplan : b.plan = Plan.free) (hreset : b.dailyReset = some t)
    (hwin : ∀ x ∈ times, x - t ≤ dayMs) :
    (runSeq fl b times).2 = (List.range times.length).map
      (fun i => if b.dailyCount + i < fl then LimitDecision.admitted
                else LimitDecision.quotaExceeded) := by
  induction times generalizing b with
  | nil => rfl
  | cons now rest ih =>
    have hr : applyRollover b now = b :=
      applyRollover_le b now t hreset (by
        have := hwin now (List.mem_cons_self now rest)
        omega)
    have hwin' : ∀ x ∈ rest, x - t ≤ dayMs := fun x hx =>
      hwin x (List.mem_cons_of_mem now hx)
    by_cases hc : b.dailyCount ≥ fl
    · have hstep : enforceLimit fl b now = (b, LimitDecision.quotaExceeded) := by
        simp [enforceLimit, limitStep, hr, hplan, planLimit, hc]
      simp only [runSeq, hstep]
      rw [List.length_cons, List.range_succ_eq_map, List.map_cons, List.map_map]
      have htail := ih b hplan hreset hwin'
      rw [htail, List.cons_eq_cons]
      refine ⟨by split <;> first | rfl | omega, List.map_congr_left ?_⟩
      intro i _
      simp only [Function.comp_apply]
      split <;> split <;> first | rfl | omega
    · have hstep : enforceLimit fl b now =
          ({ b with dailyCount := b.dailyCount + 1 }, LimitDecision.admitted) := by
        simp [enforceLimit, limitStep, hr, hplan, planLimit, hc]
      simp only [runSeq, hstep]
      rw [List.length_cons, List.range_succ_eq_map, List.map_cons, List.map_map]
      have htail := ih { b with dailyCount := b.dailyCount + 1 } hplan hreset hwin'
      rw [htail, List.cons_eq_cons]
      refine ⟨by split <;> first | rfl | omega, List.map_congr_left ?_⟩
      intro i _
      simp only [Function.comp_apply]
      split <;> split <;> first | rfl | omega

theorem range_map_cutoff (fl : Nat) :
    (List.range (fl + 1)).map
      (fun i => if i < fl then LimitDecision.admitted else LimitDecision.quotaExceeded)
      = List.replicate fl LimitDecision.admitted ++ [LimitDecision.quotaExceeded] := by
  rw [List.range_succ, List.map_append]
  congr 1
  · apply List.eq_replicate_iff.mpr
    refine ⟨by simp, ?_⟩
    intro d hd
    rcases List.mem_map.mp hd with ⟨i, hi, hfi⟩
    rw [← hfi, if_pos (List.mem_range.mp hi)]
  · simp

/-! ### Claim theorems -/

/-- C1: for every resolved account, after any window rollover the request is
rejected with `QuotaExceeded` and the counter left unchanged when the rolled
count is at least the plan limit, and otherwise the counter is incremented by
exactly 1 and the request admitted; consequently a free account starting a
window at count 0 has its first `N` requests admitted and the `(N+1)`-th
rejected, where `N` is the configured free limit. -/
theorem enforceLimit_admission (fl : Nat) (a : Account) (now : Int) :
    ((applyRollover a now).dailyCount ≥ planLimit fl (applyRollover a now).plan →
      enforceLimit fl a now = (applyRollover a now, LimitDecision.quotaExceeded))
    ∧ ((applyRollover a now).dailyCount < planLimit fl (applyRollover a now).plan →
      enforceLimit fl a now =
        ({ applyRollover a now with
            dailyCount := (applyRollover a now).dailyCount + 1 },
          LimitDecision.admitted))
    ∧ (∀ (t : Int) (b : Account) (times : List Int),
        b.plan = Plan.free → b.dailyReset = some t → b.dailyCount = 0 →
        times.length = fl + 1 → (∀ x ∈ times, x - t ≤ dayMs) →
        (runSeq fl b times).2 =
          List.replicate fl LimitDecision.admitted ++ [LimitDecision.quotaExceeded]) := by
  refine ⟨?_, ?_, ?_⟩
  · intro h
    unfold enforceLimit limitStep
    rw [if_pos h]
  · intro h
    unfold enforceLimit limitStep
    rw [if_neg (by omega)]
  · intro t b times hplan hreset hcnt hlen hwin
    have hdec := runSeq_free_decisions times fl t b hplan hreset hwin
    rw [hdec]
    simp only [hcnt, hlen, Nat.zero_add]
    exact range_map_cutoff fl

theorem enforceLimit_admission_witness :
    enforceLimit 2
      { id := 0, email := [], passwordHash := [], apiKey := [], plan := Plan.free,
        createdAt := 0, dailyCount := 5, dailyReset := some 0 } 0
      = ({ id := 0, email := [], passwordHash := [], apiKey := [], plan := Plan.free,
           createdAt := 0, dailyCount := 5, dailyReset := some 0 },
         LimitDecision.quotaExceeded)
    ∧ (runSeq 2
        { id := 0, email := [], passwordHash := [], apiKey := [], plan := Plan.free,
          createdAt := 0, dailyCount := 0, dailyReset := some 0 } [0, 3, 7]).2
      = [LimitDecision.admitted, LimitDecision.admitted, LimitDecision.quotaExceeded] := by
  constructor
  · exact ((enforceLimit_admission 2
      { id := 0, email := [], passwordHash := [], apiKey := [], plan := Plan.free,
        createdAt := 0, dailyCount := 5, dailyReset := some 0 } 0).1
      (by decide)).trans (by decide)
  · simpa using (enforceLimit_admission 2
      { id := 0, email := [], passwordHash := [], apiKey := [], plan := Plan.free,
        createdAt := 0, dailyCount := 0, dailyReset := some 0 } 0).2.2 0
      { id := 0, email := [], passwordHash := [], apiKey := [], plan := Plan.free,
        createdAt := 0, dailyCount := 0, dailyReset := some 0 } [0, 3, 7]
      rfl rfl rfl (by decide) (by decide)

/-- C2: for an account whose `dailyReset` is set, the request-time rollover
resets `dailyCount` to 0 and `dailyReset` to `now` exactly when more than 24
hours have elapsed since `dailyReset`, leaves both untouched when 24 hours or
less have elapsed, and `enforceLimit` evaluates its limit check only on the
rolled-over account. -/
theorem rollover_window (a : Account) (now t : Int) (h : a.dailyReset = some t) :
    (now - t > dayMs →
      applyRollover a now = { a with dailyCount := 0, dailyReset := some now })
    ∧ (now - t ≤ dayMs → applyRollover a now = a)
    ∧ (∀ fl, enforceLimit fl a now = limitStep fl (applyRollover a now)) := by
  refine ⟨fun hgt => applyRollover_gt a now t h hgt,
    fun hle => applyRollover_le a now t h (by omega),
    fun _ => rfl⟩

theorem rollover_window_witness :
    applyRollover
      { id := 3, email := [], passwordHash := [], apiKey := [], plan := Plan.free,
        createdAt := 0, dailyCount := 7, dailyReset := some 0 } 86400001
      = { id := 3, email := [], passwordHash := [], apiKey := [], plan := Plan.free,
          createdAt := 0, dailyCount := 0, dailyReset := some 86400001 }
    ∧ applyRollover
      { id := 3, email := [], passwordHash := [], apiKey := [], plan := Plan.free,
        createdAt := 0, dailyCount := 7, dailyReset := some 0 } 86400000
      = { id := 3, email := [], passwordHash := [], apiKey := [], plan := Plan.free,
          createdAt := 0, dailyCount := 7, dailyReset := some 0 } := by
  constructor
  · exact ((rollover_window
      { id := 3, email := [], passwordHash := [], apiKey := [], plan := Plan.free,
        createdAt := 0, dailyCount := 7, dailyReset := some 0 } 86400001 0 rfl).1
      (by decide)).trans (by decide)
  · exact (rollover_window
      { id := 3, email := [], passwordHash := [], apiKey := [], plan := Plan.free,
        createdAt := 0, dailyCount := 7, dailyReset := some 0 } 86400000 0 rfl).2.1
      (by decide)

/-- C3: the claim requires that two concurrent admissions with one quota unit
remaining never both be admitted, but the code's separate read and
check-then-write steps admit both under the interleaving read-1, read-2,
write-1, write-2: with limit 1 and stored count 0 both requests load the
stale count 0, both pass the check, and both finish admitted. This is the
race the spec itself flags as a correctness bug of the implementation. -/
theorem race_both_admitted :
    (runSched 1 { store := 0, r1 := ReqPhase.start, r2 := ReqPhase.start }
        [true, false, true, false]).r1 = ReqPhase.done true
    ∧ (runSched 1 { store := 0, r1 := ReqPhase.start, r2 := ReqPhase.start }
        [true, false, true, false]).r2 = ReqPhase.done true := by
  decide

/-- C4 counterexample: the claim assigns `InvalidToken` to verification
failure and `AccountNotFound` to an unresolvable bound id, but on a
bearer-only request whose token fails verification the code's `try/catch`
answers with the generic auth error, not the `Invalid token` body — and the
`Invalid token` body is what the code sends when the token verifies yet its
bound id no longer resolves. -/
theorem authBearer_claim_cex :
    authMiddleware (fun _ => (none : Option Nat)) []
      { xApiKey := none, authorization := some ("Bearer t1".toList) }
      = Except.error AuthErr.authError
    ∧ (Except.error AuthErr.authError : Except AuthErr Account)
        ≠ Except.error AuthErr.invalidToken
    ∧ authMiddleware (fun _ => some 1) []
      { xApiKey := none, authorization := some ("Bearer t1".toList) }
      = Except.error AuthErr.invalidToken := by
  refine ⟨rfl, ?_, rfl⟩
  intro hcontra
  injection hcontra with hkind
  cases hkind

/-- C4 (amended): for every request presenting only a bearer token, identity
resolution fails with the generic catch-all auth error whenever signature
verification fails or the token is expired, fails with the `Invalid token`
error when the token verifies but its bound account id no longer resolves,
and on success returns the account bound to the token's id. -/
theorem authBearer_kinds (verify : JSStr → Option Nat) (store : List Account)
    (tok : JSStr) :
    (verify tok = none →
      authMiddleware verify store
        { xApiKey := none, authorization := some ("Bearer ".toList ++ tok) }
        = Except.error AuthErr.authError)
    ∧ (∀ i, verify tok = some i → findById store i = none →
        authMiddleware verify store
          { xApiKey := none, authorization := some ("Bearer ".toList ++ tok) }
          = Except.error AuthErr.invalidToken)
    ∧ (∀ i u, verify tok = some i → findById store i = some u →
        authMiddleware verify store
          { xApiKey := none, authorization := some ("Bearer ".toList ++ tok) }
          = Except.ok u) := by
  have hpre := isPrefixOf_append_self ("Bearer ".toList) tok
  have hdrop := drop_bearer_marker tok
  refine ⟨?_, ?_, ?_⟩
  · intro hv
    show authBearer verify store (some ("Bearer ".toList ++ tok))
      = Except.error AuthErr.authError
    simp only [authBearer, hpre, if_true, hdrop, hv]
  · intro i hv hfind
    show authBearer verify store (some ("Bearer ".toList ++ tok))
      = Except.error AuthErr.invalidToken
    simp only [authBearer, hpre, if_true, hdrop, hv, hfind]
  · intro i u hv hfind
    show authBearer verify store (some ("Bearer ".toList ++ tok))
      = Except.ok u
    simp only [authBearer, hpre, if_true, hdrop, hv, hfind]

theorem authBearer_kinds_witness :
    authMiddleware (fun _ => (none : Option Nat)) []
      { xApiKey := none, authorization := some ("Bearer ".toList ++ ("t".toList)) }
      = Except.error AuthErr.authError
    ∧ authMiddleware (fun _ => some 5) []
      { xApiKey := none, authorization := some ("Bearer ".toList ++ ("t".toList)) }
      = Except.error AuthErr.invalidToken
    ∧ authMiddleware (fun _ => some 5)
      [mkAccount 5 ("u@x".toList) [] ("pk_1".toList) Plan.free 0 (some 0)]
      { xApiKey := none, authorization := some ("Bearer ".toList ++ ("t".toList)) }
      = Except.ok (mkAccount 5 ("u@x".toList) [] ("pk_1".toList) Plan.free 0 (some 0)) := by
  refine ⟨(authBearer_kinds (fun _ => none) [] ("t".toList)).1 rfl,
    (authBearer_kinds (fun _ => some 5) [] ("t".toList)).2.1 5 rfl rfl,
    (authBearer_kinds (fun _ => some 5)
      [mkAccount 5 ("u@x".toList) [] ("pk_1".toList) Plan.free 0 (some 0)]
      ("t".toList)).2.2 5
      (mkAccount 5 ("u@x".toList) [] ("pk_1".toList) Plan.free 0 (some 0))
      rfl (by decide)⟩

/-- C5: after `regenerateApiKey` replaces the resolved account's key with a
fresh one, resolution by the previous key fails with `Invalid API key` and
resolution by the new key succeeds, yielding the same account (with only the
key rotated); the old key no longer resolves in the post-rotation store. -/
theorem regenerate_rotates_key (verify : JSStr → Option Nat)
    (store : List Account) (a : Account) (newKey : JSStr)
    (hmem : a ∈ store) (hka : a.apiKey ≠ []) (hkn : newKey ≠ [])
    (hkeyUniq : ∀ b ∈ store, b.apiKey = a.apiKey → b = a)
    (hidUniq : ∀ b ∈ store, b.id = a.id → b = a)
    (hfresh : ∀ b ∈ store, b.apiKey ≠ newKey) :
    authMiddleware verify (regenerateApiKey store a.id newKey)
      { xApiKey := some a.apiKey, authorization := none }
      = Except.error AuthErr.invalidApiKey
    ∧ authMiddleware verify (regenerateApiKey store a.id newKey)
      { xApiKey := some newKey, authorization := none }
      = Except.ok { a with apiKey := newKey } := by
  have hne : a.apiKey ≠ newKey := hfresh a hmem
  have htr1 : jsTruthyStr (some a.apiKey) = true := by
    simp [jsTruthyStr, isEmpty_false_of_ne_nil hka]
  have htr2 : jsTruthyStr (some newKey) = true := by
    simp [jsTruthyStr, isEmpty_false_of_ne_nil hkn]
  constructor
  · have hnone : findByApiKey (regenerateApiKey store a.id newKey) a.apiKey = none := by
      rw [findByApiKey, List.find?_eq_none]
      intro x hx
      rcases List.mem_map.mp hx with ⟨b, hb, hfb⟩
      by_cases hbid : b.id = a.id
      · rw [if_pos hbid] at hfb
        subst hfb
        simp only [decide_eq_true_eq]
        exact fun he => hne he.symm
      · rw [if_neg hbid] at hfb
        subst hfb
        simp only [decide_eq_true_eq]
        intro he
        exact hbid (congrArg Account.id (hkeyUniq b hb he))
    simp only [authMiddleware, htr1, if_true, Option.getD_some, hnone]
  · have hsome : findByApiKey (regenerateApiKey store a.id newKey) newKey
        = some { a with apiKey := newKey } := by
      rw [findByApiKey]
      apply find?_eq_some_of_unique
      · have hmm := List.mem_map_of_mem
          (fun b => if b.id = a.id then { b with apiKey := newKey } else b) hmem
        simp only [if_true] at hmm
        exact hmm
      · simp
      · intro x hx hpx
        rcases List.mem_map.mp hx with ⟨b, hb, hfb⟩
        rw [decide_eq_true_eq] at hpx
        by_cases hbid : b.id = a.id
        · rw [if_pos hbid] at hfb
          subst hfb
          have hba := hidUniq b hb hbid
          subst hba
          rfl
        · rw [if_neg hbid] at hfb
          subst hfb
          exact absurd hpx (hfresh b hb)
    simp only [authMiddleware, htr2, if_true, Option.getD_some, hsome]

theorem regenerate_rotates_key_witness :
    authMiddleware (fun _ => (none : Option Nat))
      (regenerateApiKey
        [mkAccount 1 ("a@x".toList) [] ("pk_old".toList) Plan.free 0 (some 0),
         mkAccount 2 ("b@x".toList) [] ("pk_b".toList) Plan.premium 3 (some 0)]
        1 ("pk_new".toList))
      { xApiKey := some ("pk_old".toList), authorization := none }
      = Except.error AuthErr.invalidApiKey
    ∧ authMiddleware (fun _ => (none : Option Nat))
      (regenerateApiKey
        [mkAccount 1 ("a@x".toList) [] ("pk_old".toList) Plan.free 0 (some 0),
         mkAccount 2 ("b@x".toList) [] ("pk_b".toList) Plan.premium 3 (some 0)]
        1 ("pk_new".toList))
      { xApiKey := some ("pk_new".toList), authorization := none }
      = Except.ok
          { mkAccount 1 ("a@x".toList) [] ("pk_old".toList) Plan.free 0 (some 0) with
            apiKey := ("pk_new".toList) } := by
  exact regenerate_rotates_key (fun _ => none)
    [mkAccount 1 ("a@x".toList) [] ("pk_old".toList) Plan.free 0 (some 0),
     mkAccount 2 ("b@x".toList) [] ("pk_b".toList) Plan.premium 3 (some 0)]
    (mkAccount 1 ("a@x".toList) [] ("pk_old".toList) Plan.free 0 (some 0))
    ("pk_new".toList)
    (by decide) (by decide) (by decide) (by decide) (by decide) (by decide)

/-- C6: a signup request with a present email and password whose email
already belongs to a stored account fails with the duplicate-email error and
returns the store unchanged — the existing account keeps every field and no
new account is created. -/
theorem signup_duplicate (store : List Account) (r : SignupReq)
    (hash newKey : JSStr) (newId : Nat) (now : Int) (token : JSStr)
    (a : Account) (hmem : a ∈ store) (hemail : a.email = r.email)
    (he : r.email ≠ []) (hp : r.password ≠ []) :
    signup store r hash newKey newId now token
      = (store, SignupOutcome.duplicateEmail) := by
  have hsome : (store.find? (fun x => decide (x.email = r.email))).isSome := by
    rw [List.find?_isSome]
    exact ⟨a, hmem, by simp [hemail]⟩
  rcases Option.isSome_iff_exists.mp hsome with ⟨u, hu⟩
  unfold signup
  rw [isEmpty_false_of_ne_nil he, isEmpty_false_of_ne_nil hp]
  simp only [Bool.or_self, Bool.false_eq_true, if_false, hu]

theorem signup_duplicate_witness :
    signup [mkAccount 1 ("a@x".toList) ("h1".toList) ("pk_1".toList) Plan.free 0 (some 0)]
      { email := ("a@x".toList), password := ("pw".toList), plan := none }
      ("h2".toList) ("pk_2".toList) 2 5 ("tok".toList)
      = ([mkAccount 1 ("a@x".toList) ("h1".toList) ("pk_1".toList) Plan.free 0 (some 0)],
         SignupOutcome.duplicateEmail) := by
  exact signup_duplicate
    [mkAccount 1 ("a@x".toList) ("h1".toList) ("pk_1".toList) Plan.free 0 (some 0)]
    { email := ("a@x".toList), password := ("pw".toList), plan := none }
    ("h2".toList) ("pk_2".toList) 2 5 ("tok".toList)
    (mkAccount 1 ("a@x".toList) ("h1".toList) ("pk_1".toList) Plan.free 0 (some 0))
    (by decide) (by decide) (by decide) (by decide)

/-- C7: every failed login — unknown email, or known email with a password
that does not verify against the stored hash — produces the identical
response, status 400 with the body `Invalid credentials`, so the result does
not reveal which check failed. -/
theorem login_failure_uniform (store : List Account) (email password : JSStr)
    (compareHash : JSStr → JSStr → Bool) (token : JSStr) :
    (store.find? (fun x => decide (x.email = email)) = none →
      login store email password compareHash token
        = LoginOutcome.failure 400 ("Invalid credentials".toList))
    ∧ (∀ u, store.find? (fun x => decide (x.email = email)) = some u →
        compareHash password u.passwordHash = false →
        login store email password compareHash token
          = LoginOutcome.failure 400 ("Invalid credentials".toList)) := by
  constructor
  · intro h
    unfold login
    rw [h]
  · intro u hu hcmp
    unfold login
    rw [hu]
    simp only [hcmp, Bool.false_eq_true, if_false]

theorem login_failure_uniform_witness :
    login [] ("a@x".toList) ("pw".toList) (fun _ _ => false) ("tok".toList)
      = LoginOutcome.failure 400 ("Invalid credentials".toList)
    ∧ login [mkAccount 1 ("a@x".toList) ("h1".toList) ("pk_1".toList) Plan.free 0 (some 0)]
      ("a@x".toList) ("pw".toList) (fun _ _ => false) ("tok".toList)
      = LoginOutcome.failure 400 ("Invalid credentials".toList) := by
  refine ⟨(login_failure_uniform [] ("a@x".toList) ("pw".toList)
      (fun _ _ => false) ("tok".toList)).1 rfl,
    (login_failure_uniform
      [mkAccount 1 ("a@x".toList) ("h1".toList) ("pk_1".toList) Plan.free 0 (some 0)]
      ("a@x".toList) ("pw".toList) (fun _ _ => false) ("tok".toList)).2
      (mkAccount 1 ("a@x".toList) ("h1".toList) ("pk_1".toList) Plan.free 0 (some 0))
      (by decide) rfl⟩

/-- C8: identity resolution is read-only: when it fails, the whole request
leaves the store exactly as it was; when it succeeds, the account it returns
is a stored account read as-is, and the only store change of the request is
the one made afterwards by the quota stage's `save` — none is made by
resolution itself. -/
theorem authMiddleware_readonly (verify : JSStr → Option Nat) (fl : Nat)
    (store : List Account) (h : ReqHeaders) (now : Int) :
    (∀ e, authMiddleware verify store h = Except.error e →
      protectedRoute verify fl store h now = (store, RouteOutcome.authFailed e))
    ∧ (∀ u, authMiddleware verify store h = Except.ok u →
      u ∈ store
      ∧ (protectedRoute verify fl store h now).1
          = saveAccount store (enforceLimit fl u now).1) := by
  constructor
  · intro e he
    unfold protectedRoute
    rw [he]
  · intro u hu
    refine ⟨?_, ?_⟩
    · unfold authMiddleware at hu
      by_cases ht : jsTruthyStr h.xApiKey
      · rw [if_pos ht] at hu
        cases hfind : findByApiKey store (h.xApiKey.getD []) with
        | none => rw [hfind] at hu; cases hu
        | some v =>
          rw [hfind] at hu
          cases hu
          exact List.mem_of_find?_eq_some hfind
      · rw [if_neg ht] at hu
        cases hauth : h.authorization with
        | none =>
          rw [hauth] at hu
          rw [show authBearer verify store none = Except.error AuthErr.noCredentials
            from rfl] at hu
          cases hu
        | some s =>
          rw [hauth] at hu
          simp only [authBearer] at hu
          by_cases hpre : ("Bearer ".toList).isPrefixOf s
          · rw [if_pos hpre] at hu
            cases hv : verify (s.drop 7) with
            | none => rw [hv] at hu; cases hu
            | some i =>
              simp only [hv] at hu
              cases hfind : findById store i with
              | none => rw [hfind] at hu; cases hu
              | some v =>
                rw [hfind] at hu
                cases hu
                exact List.mem_of_find?_eq_some hfind
          · rw [if_neg hpre] at hu; cases hu
    · unfold protectedRoute
      rw [hu]

theorem authMiddleware_readonly_witness :
    protectedRoute (fun _ => (none : Option Nat)) 20
      [mkAccount 1 ("a@x".toList) [] ("pk_1".toList) Plan.free 4 (some 0)]
      { xApiKey := none, authorization := none } 0
      = ([mkAccount 1 ("a@x".toList) [] ("pk_1".toList) Plan.free 4 (some 0)],
         RouteOutcome.authFailed AuthErr.noCredentials)
    ∧ (mkAccount 1 ("a@x".toList) [] ("pk_1".toList) Plan.free 4 (some 0)
        ∈ [mkAccount 1 ("a@x".toList) [] ("pk_1".toList) Plan.free 4 (some 0)]
      ∧ (protectedRoute (fun _ => (none : Option Nat)) 20
          [mkAccount 1 ("a@x".toList) [] ("pk_1".toList) Plan.free 4 (some 0)]
          { xApiKey := some ("pk_1".toList), authorization := none } 0).1
        = saveAccount
            [mkAccount 1 ("a@x".toList) [] ("pk_1".toList) Plan.free 4 (some 0)]
            (enforceLimit 20
              (mkAccount 1 ("a@x".toList) [] ("pk_1".toList) Plan.free 4 (some 0)) 0).1) := by
  refine ⟨(authMiddleware_readonly (fun _ => none) 20
      [mkAccount 1 ("a@x".toList) [] ("pk_1".toList) Plan.free 4 (some 0)]
      { xApiKey := none, authorization := none } 0).1 AuthErr.noCredentials rfl,
    (authMiddleware_readonly (fun _ => none) 20
      [mkAccount 1 ("a@x".toList) [] ("pk_1".toList) Plan.free 4 (some 0)]
      { xApiKey := some ("pk_1".toList), authorization := none } 0).2
      (mkAccount 1 ("a@x".toList) [] ("pk_1".toList) Plan.free 4 (some 0)) rfl⟩

/-- C9: on a 5-page document the range string `2-3` keeps exactly pages 2
and 3 in order; every index the filter keeps is within the document, so
out-of-range indices are silently dropped rather than erroring, and a spec
whose entries are all out of range (for example `0,10` on 5 pages) yields an
output with no pages. -/
theorem split_pages_spec :
    (∀ (α : Type) (p0 p1 p2 p3 p4 : α),
      splitDoc [p0, p1, p2, p3, p4] (some ("2-3".toList)) = [p1, p2])
    ∧ (∀ (q : Option JSStr) (total : Nat) (i : Nat),
        i ∈ keptIndices q total → i < total)
    ∧ (∀ (α : Type) (doc : List α) (s : JSStr),
        (∀ o ∈ pagesToKeep (some s), keepFilter doc.length o = none) →
        splitDoc doc (some s) = [])
    ∧ (∀ (α : Type) (p0 p1 p2 p3 p4 : α),
      splitDoc [p0, p1, p2, p3, p4] (some ("0,10".toList)) = []) := by
  refine ⟨fun α p0 p1 p2 p3 p4 => rfl, ?_, ?_, fun α p0 p1 p2 p3 p4 => rfl⟩
  · intro q total i hi
    unfold keptIndices at hi
    rcases List.mem_filterMap.mp hi with ⟨o, ho, hfo⟩
    cases o with
    | none => simp [keepFilter] at hfo
    | some j =>
      simp only [keepFilter] at hfo
      by_cases hj : 0 ≤ j ∧ j < (total : Int)
      · rw [if_pos hj] at hfo
        cases hfo
        omega
      · rw [if_neg hj] at hfo
        cases hfo
  · intro α doc s hall
    unfold splitDoc
    have hkept : keptIndices (some s) doc.length = [] := by
      unfold keptIndices
      exact List.filterMap_eq_nil_iff.mpr hall
    rw [hkept]
    rfl

theorem split_pages_spec_witness :
    splitDoc [10, 20, 30, 40, 50] (some ("2-3".toList)) = [20, 30]
    ∧ (1 : Nat) < 5
    ∧ splitDoc [10, 20, 30, 40, 50] (some ("7-9".toList)) = ([] : List Nat) := by
  refine ⟨split_pages_spec.1 Nat 10 20 30 40 50, ?_, ?_⟩
  · exact split_pages_spec.2.1 (some ("2-3".toList)) 5 1 (by decide)
  · exact split_pages_spec.2.2.1 Nat [10, 20, 30, 40, 50] ("7-9".toList) (by decide)

/-- C10: a split request with no pages specification (absent from both body
and query) defaults to keeping index 0 only, so the output document is
exactly the first page of the input. -/
theorem split_default_first_page (α : Type) (p : α) (rest : List α) :
    splitDoc (p :: rest) none = [p] := by
  have h2 : keepFilter (p :: rest).length (some 0) = some 0 := by
    simp only [keepFilter]
    rw [if_pos ⟨le_refl 0, by simp only [List.length_cons]; omega⟩]
    rfl
  have h3 : keptIndices none (p :: rest).length = [0] := by
    unfold keptIndices pagesToKeep
    rw [show jsTruthyStr none = false from rfl]
    simp only [Bool.false_eq_true, if_false, List.filterMap_cons, h2,
      List.filterMap_nil]
  unfold splitDoc
  rw [h3]
  simp only [List.filterMap_cons, List.filterMap_nil, List.getElem?_cons_zero]
